import Mathlib

set_option maxHeartbeats 1000000

/-!
Shallow embedding of the `OpenAIService` class from `src/services/openai.ts`.

The service is a singleton holding a per-chat message history (a JavaScript
`Map<string, Message[]>`), the current chat and user identifiers (nullable
strings), and a `Set` of prediction listener callbacks.  The embedding models:

* the history map as an insertion-ordered association list with JavaScript
  `Map` semantics for `get` / `set` / `delete` / `clear`;
* nullable strings as `Option String`, with JavaScript truthiness
  (`null` and the empty string are falsy) made explicit;
* listener callbacks as natural-number reference identifiers kept in an
  insertion-ordered duplicate-free list (JavaScript `Set` semantics), with
  notifications recorded as a list of (listener, chatId, prediction) events;
* the remote completion boundary as an explicit function parameter from a
  request to `Except Unit Completion` (`Except.error` models a thrown error);
* the AI-enabled setting read from the global store as a `Bool` parameter.

`predictMessage` returns the produced string together with the final state,
the list of boundary requests issued and the notification events, so that
gating (no boundary call, no state change) is directly observable.
-/

/-- Role of a chat turn, mirroring the TypeScript union type. -/
inductive Role where
  | user
  | assistant
  | system
deriving DecidableEq, Repr

/-- A chat message as given to the service and stored in the history map. -/
structure Message where
  role : Role
  content : String
  username : Option String
deriving DecidableEq, Repr

/-- JavaScript truthiness test for a nullable string: `null` and the empty
string are falsy, every other string is truthy. -/
def jsFalsyOptStr : Option String → Bool
  | none => true
  | some s => s.isEmpty

/-- JavaScript strict equality between a possibly-undefined string (a message
username) and a possibly-null string (the current user id): two strings are
strictly equal when they are the same string; `undefined` and `null` are not
strictly equal to each other or to any string. -/
def jsStrictEqOptStr : Option String → Option String → Bool
  | some a, some b => a == b
  | _, _ => false

/-- The history map: insertion-ordered association list from chat id to the
stored message list, as a JavaScript `Map`. -/
abbrev HistMap := List (String × List Message)

/-- `Map.get`: the value stored under a key, if any (keys are unique in a
JavaScript `Map`, so the first entry is the entry). -/
def mapGet : HistMap → String → Option (List Message)
  | [], _ => none
  | p :: m, k => if p.1 = k then some p.2 else mapGet m k

/-- `Map.set`: replace the value under an existing key in place, or append a
new entry at the end (JavaScript `Map` keeps insertion order). -/
def mapSet : HistMap → String → List Message → HistMap
  | [], k, v => [(k, v)]
  | p :: m, k, v => if p.1 = k then (k, v) :: m else p :: mapSet m k v

/-- `Map.delete`: remove the entry under a key, if present. -/
def mapDelete : HistMap → String → HistMap
  | [], _ => []
  | p :: m, k => if p.1 = k then m else p :: mapDelete m k

/-- A listener callback reference; callbacks are distinguished only by
reference identity, modelled by a natural number. -/
abbrev Listener := Nat

/-- One notification event: which listener was invoked, with which chat id
and prediction text. -/
abbrev Notification := Listener × String × String

/-- The mutable fields of the `OpenAIService` instance. -/
structure ServiceState where
  messageHistory : HistMap
  currentChatId : Option String
  currentUserId : Option String
  predictionListeners : List Listener
deriving DecidableEq, Repr

/-- The freshly-constructed service: empty history, no current chat or user,
no listeners. -/
def initState : ServiceState :=
  { messageHistory := []
    currentChatId := none
    currentUserId := none
    predictionListeners := [] }

/-- `addPredictionListener`: `Set.add`, a no-op when the reference is already
present, otherwise appended in insertion order. -/
def addPredictionListener (st : ServiceState) (l : Listener) : ServiceState :=
  if l ∈ st.predictionListeners then st
  else { st with predictionListeners := st.predictionListeners ++ [l] }

/-- `removePredictionListener`: `Set.delete` by reference equality. -/
def removePredictionListener (st : ServiceState) (l : Listener) : ServiceState :=
  { st with predictionListeners := st.predictionListeners.filter (fun x => x ≠ l) }

/-- `notifyPredictionListeners`: `forEach` over the listener set in insertion
order, invoking each callback with (chatId, prediction). -/
def notifyPredictionListeners (st : ServiceState) (chatId : String)
    (prediction : String) : List Notification :=
  st.predictionListeners.map (fun l => (l, chatId, prediction))

/-- `setCurrentUser`: records the user id. -/
def setCurrentUser (st : ServiceState) (userId : String) : ServiceState :=
  { st with currentUserId := some userId }

/-- `setCurrentChat`: records the chat id; when the argument is falsy
(`null` or the empty string) the whole history map is cleared. -/
def setCurrentChat (st : ServiceState) (chatId : Option String) : ServiceState :=
  let st1 := { st with currentChatId := chatId }
  if jsFalsyOptStr chatId then { st1 with messageHistory := [] } else st1

/-- One role-tagged content unit of the completion request. -/
structure Turn where
  role : Role
  content : String
deriving DecidableEq, Repr

/-- The fixed system instruction sent with every completion request. -/
def systemPrompt : String :=
  "You are participating in a Telegram chat conversation as the current user. Your task is to predict the next message that the current user would send, based on their speaking style and the conversation context. Keep responses natural and in character. Pay attention to the conversation flow. Respond in the same language as the conversation. Do not include any username prefixes in your response."

/-- A request to the completion boundary, with the fixed sampling
parameters written as exact rationals. -/
structure Request where
  model : String
  messages : List Turn
  maxTokens : Nat
  temperature : ℚ
  presencePenalty : ℚ
  frequencyPenalty : ℚ
deriving DecidableEq

/-- The message carried by one choice of a completion response; the content
may be absent. -/
structure ChoiceMessage where
  content : Option String
deriving DecidableEq, Repr

/-- One choice of a completion response; the message may be absent. -/
structure Choice where
  message : Option ChoiceMessage
deriving DecidableEq, Repr

/-- A completion response: a list of choices. -/
structure Completion where
  choices : List Choice
deriving DecidableEq, Repr

/-- The boundary: a function from request to response or thrown error. -/
abbrev Boundary := Request → Except Unit Completion

/-- `messages.slice(-20)`: the last `n` elements of a list. -/
def takeLast (n : Nat) (l : List α) : List α :=
  l.drop (l.length - n)

/-- The per-message formatting step of `predictMessage`: role `assistant`
when the username is strictly equal to the current user id, else `user`;
content kept, username dropped; order preserved. -/
def formatMessages (cur : Option String) (msgs : List Message) : List Turn :=
  msgs.map (fun msg =>
    { role := if jsStrictEqOptStr msg.username cur then Role.assistant else Role.user
      content := msg.content })

/-- The completion request built by `predictMessage`: the fixed system turn
followed by the formatted turns, with the fixed parameters. -/
def mkRequest (turns : List Turn) : Request :=
  { model := "gpt-4"
    messages := { role := Role.system, content := systemPrompt } :: turns
    maxTokens := 100
    temperature := (7 : ℚ) / 10
    presencePenalty := (6 : ℚ) / 10
    frequencyPenalty := (5 : ℚ) / 10 }

/-- `completion.choices[0]?.message?.content || ''`: the first choice text,
defaulting to the empty string when any link is absent. -/
def extractPrediction (c : Completion) : String :=
  (((c.choices.head?).bind (fun ch => ch.message)).bind
    (fun m => m.content)).getD ""

/-- The observable outcome of one `predictMessage` call: the returned string,
the state after the call, the boundary requests issued and the notification
events delivered. -/
structure PredictResult where
  result : String
  state : ServiceState
  boundaryCalls : List Request
  notifications : List Notification
deriving DecidableEq

/-- `predictMessage(chatId, messages)`.  Gates: the chat must be the current
chat (strict equality against the nullable current id), the current user must
be truthy, the message list nonempty, the AI-enabled setting true.  Then the
last 20 messages replace this chat history, the request is built and sent;
on success the first choice text is broadcast and returned, on a thrown
boundary error the empty string is returned. -/
def predictMessage (st : ServiceState) (isAiEnabled : Bool) (boundary : Boundary)
    (chatId : String) (messages : List Message) : PredictResult :=
  if st.currentChatId ≠ some chatId ∨ jsFalsyOptStr st.currentUserId then
    { result := "", state := st, boundaryCalls := [], notifications := [] }
  else if messages.length = 0 then
    { result := "", state := st, boundaryCalls := [], notifications := [] }
  else if ¬ isAiEnabled then
    { result := "", state := st, boundaryCalls := [], notifications := [] }
  else
    let recentMessages := takeLast 20 messages
    let st1 := { st with messageHistory := mapSet st.messageHistory chatId recentMessages }
    let formattedMessages := formatMessages st.currentUserId recentMessages
    if formattedMessages.length = 0 then
      { result := "", state := st1, boundaryCalls := [], notifications := [] }
    else
      let req := mkRequest formattedMessages
      match boundary req with
      | Except.ok completion =>
          let prediction := extractPrediction completion
          { result := prediction
            state := st1
            boundaryCalls := [req]
            notifications := notifyPredictionListeners st1 chatId prediction }
      | Except.error _ =>
          { result := "", state := st1, boundaryCalls := [req], notifications := [] }

/-- `updateHistory(chatId, newMessage)`: only for the current chat; appends
the message and evicts the oldest entry when the length exceeds 20. -/
def updateHistory (st : ServiceState) (chatId : String) (newMessage : Message) :
    ServiceState :=
  if st.currentChatId ≠ some chatId then st
  else
    let history := (mapGet st.messageHistory chatId).getD []
    let history1 := history ++ [newMessage]
    let history2 := if history1.length > 20 then history1.tail else history1
    { st with messageHistory := mapSet st.messageHistory chatId history2 }

/-- `clearHistory(chatId)`: unconditional deletion of one chat history. -/
def clearHistory (st : ServiceState) (chatId : String) : ServiceState :=
  { st with messageHistory := mapDelete st.messageHistory chatId }

/-- The observable outcome of one `clearPrediction` call. -/
structure ClearResult where
  state : ServiceState
  notifications : List Notification
deriving DecidableEq

/-- `clearPrediction()`: when the current chat id is truthy, deletes its
history and notifies every listener with the empty string; otherwise a
no-op. -/
def clearPrediction (st : ServiceState) : ClearResult :=
  match st.currentChatId with
  | some c =>
      if c.isEmpty then { state := st, notifications := [] }
      else
        { state := { st with messageHistory := mapDelete st.messageHistory c }
          notifications := notifyPredictionListeners st c "" }
  | none => { state := st, notifications := [] }

/-- `regeneratePrediction(chatId, messages)`: returns the empty string when
the AI-enabled setting is false, otherwise delegates to `predictMessage`. -/
def regeneratePrediction (st : ServiceState) (isAiEnabled : Bool)
    (boundary : Boundary) (chatId : String) (messages : List Message) :
    PredictResult :=
  if ¬ isAiEnabled then
    { result := "", state := st, boundaryCalls := [], notifications := [] }
  else predictMessage st isAiEnabled boundary chatId messages

/-- One public operation on the service, for reachability arguments.  The
AI-enabled flag and the boundary behaviour at the time of an asynchronous
call are carried inside the operation. -/
inductive Op where
  | setCurrentUser (userId : String)
  | setCurrentChat (chatId : Option String)
  | addPredictionListener (l : Listener)
  | removePredictionListener (l : Listener)
  | updateHistory (chatId : String) (m : Message)
  | clearHistory (chatId : String)
  | clearPrediction
  | predictMessage (isAiEnabled : Bool) (boundary : Boundary)
      (chatId : String) (messages : List Message)
  | regeneratePrediction (isAiEnabled : Bool) (boundary : Boundary)
      (chatId : String) (messages : List Message)

/-- Apply one operation: the new state and the notifications it delivered. -/
def stepOp (st : ServiceState) : Op → ServiceState × List Notification
  | Op.setCurrentUser u => (setCurrentUser st u, [])
  | Op.setCurrentChat c => (setCurrentChat st c, [])
  | Op.addPredictionListener l => (addPredictionListener st l, [])
  | Op.removePredictionListener l => (removePredictionListener st l, [])
  | Op.updateHistory c m => (updateHistory st c m, [])
  | Op.clearHistory c => (clearHistory st c, [])
  | Op.clearPrediction =>
      let r := clearPrediction st
      (r.state, r.notifications)
  | Op.predictMessage ai b c msgs =>
      let r := predictMessage st ai b c msgs
      (r.state, r.notifications)
  | Op.regeneratePrediction ai b c msgs =>
      let r := regeneratePrediction st ai b c msgs
      (r.state, r.notifications)

/-- Run a sequence of operations, accumulating all notifications. -/
def runTrace (st : ServiceState) : List Op → ServiceState × List Notification
  | [] => (st, [])
  | op :: ops =>
      let r1 := stepOp st op
      let r2 := runTrace r1.1 ops
      (r2.1, r1.2 ++ r2.2)

/-- The bounded-history invariant: every stored chat history has at most 20
entries. -/
def histInv (st : ServiceState) : Prop :=
  ∀ p ∈ st.messageHistory, p.2.length ≤ 20

/-! ### Witness fixtures: concrete states, messages and boundaries -/

/-- A concrete incoming message from another user. -/
def wMsgHi : Message :=
  { role := Role.user, content := "hi", username := some "bob" }

/-- A concrete completion response whose first choice carries text. -/
def wCompHello : Completion :=
  { choices := [{ message := some { content := some "hello!" } }] }

/-- A boundary that always succeeds with `wCompHello`. -/
def wBoundaryOk : Boundary := fun _ => Except.ok wCompHello

/-- A boundary that always throws. -/
def wBoundaryErr : Boundary := fun _ => Except.error ()

/-- A concrete state with active chat C1, user alice and two listeners. -/
def wStC1 : ServiceState :=
  { messageHistory := [("C1", [wMsgHi])]
    currentChatId := some "C1"
    currentUserId := some "alice"
    predictionListeners := [0, 1] }

/-- A concrete state whose history holds an entry for a chat A that is the
active chat. -/
def wStA : ServiceState :=
  { messageHistory := [("A", [wMsgHi])]
    currentChatId := some "A"
    currentUserId := some "u"
    predictionListeners := [] }

/-- A concrete state whose active chat is the empty string, with stored
history for it and one registered listener. -/
def wStEmptyChat : ServiceState :=
  { messageHistory := [("", [wMsgHi])]
    currentChatId := some ""
    currentUserId := some "u"
    predictionListeners := [0] }

/-- A concrete full history of twenty messages. -/
def wFullHistory : List Message := List.replicate 20 wMsgHi

/-- A concrete state whose active chat B holds exactly twenty messages. -/
def wStFull : ServiceState :=
  { messageHistory := [("B", wFullHistory)]
    currentChatId := some "B"
    currentUserId := some "u"
    predictionListeners := [] }

/-- A concrete newest message. -/
def wMsgNew : Message :=
  { role := Role.user, content := "new", username := some "carol" }

/-! ### Helper lemmas about the map model -/

theorem mapGet_mapSet_self (m : HistMap) (k : String) (v : List Message) :
    mapGet (mapSet m k v) k = some v := by
  induction m with
  | nil => simp [mapGet, mapSet]
  | cons p m ih =>
    by_cases h : p.1 = k
    · simp [mapGet, mapSet, h]
    · simp [mapGet, mapSet, h, ih]

theorem mem_mapSet {m : HistMap} {k : String} {v : List Message} :
    ∀ q ∈ mapSet m k v, q ∈ m ∨ q = (k, v) := by
  induction m with
  | nil => simp [mapSet]
  | cons p m ih =>
    intro q hq
    by_cases h : p.1 = k
    · simp only [mapSet, h, if_true, List.mem_cons] at hq
      rcases hq with hq | hq
      · right; exact hq
      · left; exact List.mem_cons_of_mem _ hq
    · simp only [mapSet, h, if_false, List.mem_cons] at hq
      rcases hq with hq | hq
      · left; exact hq ▸ List.mem_cons_self _ _
      · rcases ih q hq with h1 | h1
        · left; exact List.mem_cons_of_mem _ h1
        · right; exact h1

theorem mem_mapDelete {m : HistMap} {k : String} :
    ∀ q ∈ mapDelete m k, q ∈ m := by
  induction m with
  | nil => simp [mapDelete]
  | cons p m ih =>
    intro q hq
    by_cases h : p.1 = k
    · simp only [mapDelete, h, if_true] at hq
      exact List.mem_cons_of_mem _ hq
    · simp only [mapDelete, h, if_false, List.mem_cons] at hq
      rcases hq with hq | hq
      · exact hq ▸ List.mem_cons_self _ _
      · exact List.mem_cons_of_mem _ (ih q hq)

theorem mapGet_mem {m : HistMap} {k : String} {v : List Message}
    (h : mapGet m k = some v) : ∃ p ∈ m, p.2 = v := by
  induction m with
  | nil => simp [mapGet] at h
  | cons p m ih =>
    by_cases hp : p.1 = k
    · simp only [mapGet, hp, if_true, Option.some.injEq] at h
      exact ⟨p, List.mem_cons_self _ _, h⟩
    · simp only [mapGet, hp, if_false] at h
      rcases ih h with ⟨q, hq, hv⟩
      exact ⟨q, List.mem_cons_of_mem _ hq, hv⟩

theorem takeLast_length (n : Nat) (l : List α) :
    (takeLast n l).length = l.length - (l.length - n) := by
  simp [takeLast]

theorem takeLast_length_le (n : Nat) (l : List α) :
    (takeLast n l).length ≤ n := by
  rw [takeLast_length]; omega

theorem takeLast_length_pos {n : Nat} {l : List α} (hn : 0 < n) (hl : l ≠ []) :
    0 < (takeLast n l).length := by
  rw [takeLast_length]
  have : 0 < l.length := List.length_pos.2 hl
  omega

/-! ### Shape lemmas for the operations -/

theorem predictMessage_state (st : ServiceState) (ai : Bool) (b : Boundary)
    (c : String) (msgs : List Message) :
    (predictMessage st ai b c msgs).state = st ∨
    (predictMessage st ai b c msgs).state =
      { st with messageHistory := mapSet st.messageHistory c (takeLast 20 msgs) } := by
  unfold predictMessage
  split
  · left; rfl
  split
  · left; rfl
  split
  · left; rfl
  dsimp only
  split
  · right; rfl
  split
  · right; rfl
  · right; rfl

theorem predictMessage_listeners (st : ServiceState) (ai : Bool) (b : Boundary)
    (c : String) (msgs : List Message) :
    (predictMessage st ai b c msgs).state.predictionListeners =
      st.predictionListeners := by
  rcases predictMessage_state st ai b c msgs with h | h <;> rw [h]

theorem predictMessage_notifs (st : ServiceState) (ai : Bool) (b : Boundary)
    (c : String) (msgs : List Message) :
    (predictMessage st ai b c msgs).notifications = [] ∨
    ∃ s, (predictMessage st ai b c msgs).notifications =
      st.predictionListeners.map (fun l => (l, c, s)) := by
  unfold predictMessage
  split
  · left; rfl
  split
  · left; rfl
  split
  · left; rfl
  dsimp only
  split
  · left; rfl
  split
  · right; exact ⟨_, rfl⟩
  · left; rfl

theorem regeneratePrediction_state (st : ServiceState) (ai : Bool) (b : Boundary)
    (c : String) (msgs : List Message) :
    (regeneratePrediction st ai b c msgs).state = st ∨
    (regeneratePrediction st ai b c msgs).state =
      { st with messageHistory := mapSet st.messageHistory c (takeLast 20 msgs) } := by
  unfold regeneratePrediction
  split
  · left; rfl
  · exact predictMessage_state st ai b c msgs

theorem regeneratePrediction_notifs (st : ServiceState) (ai : Bool) (b : Boundary)
    (c : String) (msgs : List Message) :
    (regeneratePrediction st ai b c msgs).notifications = [] ∨
    ∃ s, (regeneratePrediction st ai b c msgs).notifications =
      st.predictionListeners.map (fun l => (l, c, s)) := by
  unfold regeneratePrediction
  split
  · left; rfl
  · exact predictMessage_notifs st ai b c msgs

theorem clearPrediction_cases (st : ServiceState) :
    clearPrediction st = { state := st, notifications := [] } ∨
    ∃ c, st.currentChatId = some c ∧
      clearPrediction st =
        { state := { st with messageHistory := mapDelete st.messageHistory c }
          notifications := st.predictionListeners.map (fun l => (l, c, "")) } := by
  unfold clearPrediction
  split
  · rename_i c heq
    split
    · left; rfl
    · right; exact ⟨c, heq, rfl⟩
  · left; rfl

theorem setCurrentChat_listeners (st : ServiceState) (c : Option String) :
    (setCurrentChat st c).predictionListeners = st.predictionListeners := by
  unfold setCurrentChat
  split <;> rfl

theorem updateHistory_listeners (st : ServiceState) (c : String) (m : Message) :
    (updateHistory st c m).predictionListeners = st.predictionListeners := by
  unfold updateHistory
  split <;> rfl

/-! ### The bounded-history invariant -/

theorem histInv_mapSet {m : HistMap} (hm : ∀ p ∈ m, p.2.length ≤ 20)
    {v : List Message} (hv : v.length ≤ 20) (k : String) :
    ∀ p ∈ mapSet m k v, p.2.length ≤ 20 := by
  intro p hp
  rcases mem_mapSet p hp with h | h
  · exact hm p h
  · rw [h]; exact hv

theorem capped_length {h : List Message} (hh : h.length ≤ 20) (m : Message) :
    (if (h ++ [m]).length > 20 then (h ++ [m]).tail else h ++ [m]).length ≤ 20 := by
  have hlen : (h ++ [m]).length = h.length + 1 := by simp
  by_cases hgt : (h ++ [m]).length > 20 <;>
    simp only [hgt, if_true, if_false, List.length_tail] <;> omega

theorem histInv_updateHistory {st : ServiceState} (hinv : histInv st)
    (c : String) (m : Message) : histInv (updateHistory st c m) := by
  unfold updateHistory
  split
  · exact hinv
  · intro p hp
    simp only at hp
    have hbase : ((mapGet st.messageHistory c).getD []).length ≤ 20 := by
      cases hget : mapGet st.messageHistory c with
      | none => simp
      | some h =>
          rcases mapGet_mem hget with ⟨q, hq, hv⟩
          simpa [hget, hv] using hinv q hq
    exact histInv_mapSet hinv (capped_length hbase m) c p hp

theorem histInv_stepOp {st : ServiceState} (hinv : histInv st) (op : Op) :
    histInv (stepOp st op).1 := by
  cases op with
  | setCurrentUser u => exact hinv
  | setCurrentChat c =>
      show histInv (setCurrentChat st c)
      unfold setCurrentChat
      split
      · intro p hp; simp at hp
      · exact hinv
  | addPredictionListener l =>
      show histInv (addPredictionListener st l)
      unfold addPredictionListener
      split
      · exact hinv
      · exact hinv
  | removePredictionListener l => exact hinv
  | updateHistory c m => exact histInv_updateHistory hinv c m
  | clearHistory c =>
      intro p hp
      exact hinv p (mem_mapDelete p hp)
  | clearPrediction =>
      show histInv (clearPrediction st).state
      rcases clearPrediction_cases st with h | ⟨c, _, h⟩
      · rw [h]; exact hinv
      · rw [h]; intro p hp; exact hinv p (mem_mapDelete p hp)
  | predictMessage ai b c msgs =>
      show histInv (predictMessage st ai b c msgs).state
      rcases predictMessage_state st ai b c msgs with h | h
      · rw [h]; exact hinv
      · rw [h]; exact histInv_mapSet hinv (takeLast_length_le 20 msgs) c
  | regeneratePrediction ai b c msgs =>
      show histInv (regeneratePrediction st ai b c msgs).state
      rcases regeneratePrediction_state st ai b c msgs with h | h
      · rw [h]; exact hinv
      · rw [h]; exact histInv_mapSet hinv (takeLast_length_le 20 msgs) c

theorem histInv_runTrace (ops : List Op) :
    ∀ st : ServiceState, histInv st → histInv (runTrace st ops).1 := by
  induction ops with
  | nil => intro st h; exact h
  | cons op ops ih =>
      intro st h
      simpa [runTrace] using ih (stepOp st op).1 (histInv_stepOp h op)

theorem histInv_initState : histInv initState := by
  intro p hp
  simp [initState] at hp

/-! ### Listener-tracking lemmas -/

theorem map_notify_ne {ls : List Listener} {l : Listener} (hl : l ∉ ls)
    {c s : String} : ∀ e ∈ ls.map (fun x => (x, c, s)), e.1 ≠ l := by
  intro e he
  rcases List.mem_map.1 he with ⟨x, hx, rfl⟩
  intro h
  exact hl (h ▸ hx)

theorem stepOp_no_notify {st : ServiceState} {l : Listener} {op : Op}
    (hl : l ∉ st.predictionListeners) (hop : op ≠ Op.addPredictionListener l) :
    l ∉ (stepOp st op).1.predictionListeners ∧
    ∀ e ∈ (stepOp st op).2, e.1 ≠ l := by
  cases op with
  | setCurrentUser u => exact ⟨hl, by simp [stepOp]⟩
  | setCurrentChat c =>
      refine ⟨?_, by simp [stepOp]⟩
      show l ∉ (setCurrentChat st c).predictionListeners
      rw [setCurrentChat_listeners]; exact hl
  | addPredictionListener x =>
      have hx : x ≠ l := by
        intro h; exact hop (by rw [h])
      refine ⟨?_, by simp [stepOp]⟩
      show l ∉ (addPredictionListener st x).predictionListeners
      unfold addPredictionListener
      split
      · exact hl
      · simp only [List.mem_append, List.mem_singleton]
        rintro (h | h)
        · exact hl h
        · exact hx h.symm
  | removePredictionListener x =>
      refine ⟨?_, by simp [stepOp]⟩
      show l ∉ (removePredictionListener st x).predictionListeners
      unfold removePredictionListener
      intro h
      exact hl (List.mem_of_mem_filter h)
  | updateHistory c m =>
      refine ⟨?_, by simp [stepOp]⟩
      show l ∉ (updateHistory st c m).predictionListeners
      rw [updateHistory_listeners]; exact hl
  | clearHistory c => exact ⟨hl, by simp [stepOp]⟩
  | clearPrediction =>
      rcases clearPrediction_cases st with h | ⟨c, _, h⟩ <;>
        simp only [stepOp, h]
      · exact ⟨hl, by simp⟩
      · exact ⟨hl, map_notify_ne hl⟩
  | predictMessage ai b c msgs =>
      constructor
      · show l ∉ (predictMessage st ai b c msgs).state.predictionListeners
        rw [predictMessage_listeners]; exact hl
      · show ∀ e ∈ (predictMessage st ai b c msgs).notifications, e.1 ≠ l
        rcases predictMessage_notifs st ai b c msgs with h | ⟨s, h⟩ <;> rw [h]
        · simp
        · exact map_notify_ne hl
  | regeneratePrediction ai b c msgs =>
      constructor
      · show l ∉ (regeneratePrediction st ai b c msgs).state.predictionListeners
        rcases regeneratePrediction_state st ai b c msgs with h | h <;> rw [h] <;> exact hl
      · show ∀ e ∈ (regeneratePrediction st ai b c msgs).notifications, e.1 ≠ l
        rcases regeneratePrediction_notifs st ai b c msgs with h | ⟨s, h⟩ <;> rw [h]
        · simp
        · exact map_notify_ne hl

theorem runTrace_no_notify {l : Listener} :
    ∀ (ops : List Op) (st : ServiceState),
      l ∉ st.predictionListeners →
      (∀ op ∈ ops, op ≠ Op.addPredictionListener l) →
      l ∉ (runTrace st ops).1.predictionListeners ∧
      ∀ e ∈ (runTrace st ops).2, e.1 ≠ l := by
  intro ops
  induction ops with
  | nil => intro st hl _; exact ⟨hl, by simp [runTrace]⟩
  | cons op ops ih =>
      intro st hl hops
      have h1 := stepOp_no_notify hl (hops op (List.mem_cons_self _ _))
      have h2 := ih (stepOp st op).1 h1.1 (fun o ho => hops o (List.mem_cons_of_mem _ ho))
      refine ⟨by simpa [runTrace] using h2.1, ?_⟩
      intro e he
      simp only [runTrace, List.mem_append] at he
      rcases he with he | he
      · exact h1.2 e he
      · exact h2.2 e he

theorem removePredictionListener_not_mem (st : ServiceState) (l : Listener) :
    l ∉ (removePredictionListener st l).predictionListeners := by
  unfold removePredictionListener
  intro h
  have := List.of_mem_filter h
  simp at this

/-! ### Success and error path of predictMessage -/

theorem predictMessage_ok (st : ServiceState) (boundary : Boundary)
    (chatId : String) (messages : List Message) (comp : Completion)
    (hchat : st.currentChatId = some chatId)
    (huser : jsFalsyOptStr st.currentUserId = false)
    (hmsgs : messages ≠ [])
    (hok : boundary (mkRequest (formatMessages st.currentUserId
      (takeLast 20 messages))) = Except.ok comp) :
    predictMessage st true boundary chatId messages =
      { result := extractPrediction comp
        state := { st with messageHistory := mapSet st.messageHistory chatId (takeLast 20 messages) }
        boundaryCalls := [mkRequest (formatMessages st.currentUserId
          (takeLast 20 messages))]
        notifications := st.predictionListeners.map
          (fun l => (l, chatId, extractPrediction comp)) } := by
  have hfmt : ¬ (formatMessages st.currentUserId (takeLast 20 messages)).length = 0 := by
    simp only [formatMessages, List.length_map]
    have h1 : 0 < (takeLast 20 messages).length :=
      takeLast_length_pos (by norm_num) hmsgs
    omega
  unfold predictMessage
  split
  · rename_i hg
    exfalso
    rcases hg with hg | hg
    · exact hg hchat
    · rw [huser] at hg
      exact Bool.false_ne_true hg
  split
  · rename_i hlen
    exact absurd (List.length_eq_zero.1 hlen) hmsgs
  split
  · rename_i hai
    exact absurd rfl hai
  dsimp only
  split
  · rename_i h0
    exact absurd h0 hfmt
  split
  · rename_i comp2 heq
    rw [hok] at heq
    injection heq with h2
    subst h2
    rfl
  · rename_i e heq
    rw [hok] at heq
    cases heq

theorem predictMessage_err (st : ServiceState) (boundary : Boundary)
    (chatId : String) (messages : List Message)
    (hchat : st.currentChatId = some chatId)
    (huser : jsFalsyOptStr st.currentUserId = false)
    (hmsgs : messages ≠ [])
    (herr : boundary (mkRequest (formatMessages st.currentUserId
      (takeLast 20 messages))) = Except.error ()) :
    predictMessage st true boundary chatId messages =
      { result := ""
        state := { st with messageHistory := mapSet st.messageHistory chatId (takeLast 20 messages) }
        boundaryCalls := [mkRequest (formatMessages st.currentUserId
          (takeLast 20 messages))]
        notifications := [] } := by
  have hfmt : ¬ (formatMessages st.currentUserId (takeLast 20 messages)).length = 0 := by
    simp only [formatMessages, List.length_map]
    have h1 : 0 < (takeLast 20 messages).length :=
      takeLast_length_pos (by norm_num) hmsgs
    omega
  unfold predictMessage
  split
  · rename_i hg
    exfalso
    rcases hg with hg | hg
    · exact hg hchat
    · rw [huser] at hg
      exact Bool.false_ne_true hg
  split
  · rename_i hlen
    exact absurd (List.length_eq_zero.1 hlen) hmsgs
  split
  · rename_i hai
    exact absurd rfl hai
  dsimp only
  split
  · rename_i h0
    exact absurd h0 hfmt
  split
  · rename_i comp2 heq
    rw [herr] at heq
    cases heq
  · rename_i e heq
    rfl

theorem tail_append_singleton {h : List Message} (hh : h ≠ []) (m : Message) :
    (h ++ [m]).tail = h.tail ++ [m] := by
  cases h with
  | nil => exact absurd rfl hh
  | cons a t => rfl

/-! ### The claims -/

/-- C1, counterexample: with active chat A holding stored history, calling
setCurrentChat with the different non-null id B leaves the stored history
intact, refuting the claim that every switch to a different id discards all
stored history. -/
theorem claim_C1_counterexample :
    (some "B" ≠ (none : Option String)) ∧
    some "B" ≠ wStA.currentChatId ∧
    (setCurrentChat wStA (some "B")).messageHistory = [("A", [wMsgHi])] := by
  refine ⟨by simp, by decide, by decide⟩

/-- C1, amended: setCurrentChat always records its argument as the current
chat id, and discards all stored history exactly when the argument is falsy,
that is null or the empty string; a switch to any non-empty id retains the
whole history map unchanged. -/
theorem claim_C1_amended (st : ServiceState) (chatId : Option String) :
    (setCurrentChat st chatId).currentChatId = chatId ∧
    (setCurrentChat st chatId).messageHistory =
      (if jsFalsyOptStr chatId then [] else st.messageHistory) := by
  unfold setCurrentChat
  dsimp only
  split <;> rename_i h <;> simp [h]

/-- C2: predictMessage returns the empty string with no boundary call, no
state change and no notification whenever the chat id is not the active
chat, or no current user is set, or the message list is empty, or the
AI-enabled setting is false. -/
theorem claim_C2 (st : ServiceState) (isAiEnabled : Bool) (boundary : Boundary)
    (chatId : String) (messages : List Message)
    (h : st.currentChatId ≠ some chatId ∨ st.currentUserId = none ∨
      messages = [] ∨ isAiEnabled = false) :
    predictMessage st isAiEnabled boundary chatId messages =
      { result := "", state := st, boundaryCalls := [], notifications := [] } := by
  unfold predictMessage
  split
  · rfl
  rename_i h1
  split
  · rfl
  rename_i h2
  split
  · rfl
  rename_i h3
  exfalso
  rcases h with h | h | h | h
  · exact h1 (Or.inl h)
  · exact h1 (Or.inr (by simp [h, jsFalsyOptStr]))
  · exact h2 (by simp [h])
  · exact h3 (by simp [h])

/-- C2 witness: on the fresh service an empty message list is gated. -/
theorem claim_C2_witness :
    predictMessage initState true wBoundaryOk "C1" [] =
      { result := "", state := initState, boundaryCalls := [], notifications := [] } :=
  claim_C2 initState true wBoundaryOk "C1" [] (Or.inr (Or.inr (Or.inl rfl)))

/-- C3: when all gating checks pass and the boundary answers successfully,
predictMessage stores the last 20 input messages as the whole history of the
chat, returns the first choice text of the response, and notifies every
registered listener with the chat id and that text. -/
theorem claim_C3 (st : ServiceState) (boundary : Boundary) (chatId : String)
    (messages : List Message) (comp : Completion)
    (hchat : st.currentChatId = some chatId)
    (huser : jsFalsyOptStr st.currentUserId = false)
    (hmsgs : messages ≠ [])
    (hok : boundary (mkRequest (formatMessages st.currentUserId
      (takeLast 20 messages))) = Except.ok comp) :
    (predictMessage st true boundary chatId messages).result =
      extractPrediction comp ∧
    mapGet (predictMessage st true boundary chatId messages).state.messageHistory
      chatId = some (takeLast 20 messages) ∧
    (predictMessage st true boundary chatId messages).notifications =
      st.predictionListeners.map (fun l => (l, chatId, extractPrediction comp)) := by
  rw [predictMessage_ok st boundary chatId messages comp hchat huser hmsgs hok]
  exact ⟨rfl, mapGet_mapSet_self _ _ _, rfl⟩

/-- C3 witness: chat C1, user alice, one foreign message, a successful
boundary response with text. -/
theorem claim_C3_witness :
    (predictMessage wStC1 true wBoundaryOk "C1" [wMsgHi]).result =
      extractPrediction wCompHello ∧
    mapGet (predictMessage wStC1 true wBoundaryOk "C1" [wMsgHi]).state.messageHistory
      "C1" = some (takeLast 20 [wMsgHi]) ∧
    (predictMessage wStC1 true wBoundaryOk "C1" [wMsgHi]).notifications =
      [(0, "C1", extractPrediction wCompHello), (1, "C1", extractPrediction wCompHello)] := by
  have h := claim_C3 wStC1 wBoundaryOk "C1" [wMsgHi] wCompHello rfl rfl (by simp) rfl
  refine ⟨h.1, h.2.1, ?_⟩
  rw [h.2.2]
  rfl

/-- C4: whenever the boundary call throws, predictMessage catches the error
and returns the empty string; the embedding is a total function, so no
exception can propagate to the caller. -/
theorem claim_C4 (st : ServiceState) (isAiEnabled : Bool) (boundary : Boundary)
    (chatId : String) (messages : List Message)
    (herr : ∀ r, boundary r = Except.error ()) :
    (predictMessage st isAiEnabled boundary chatId messages).result = "" := by
  unfold predictMessage
  split
  · rfl
  split
  · rfl
  split
  · rfl
  dsimp only
  split
  · rfl
  split
  · rename_i comp heq
    rw [herr] at heq
    cases heq
  · rfl

/-- C4 witness: a boundary that always throws still yields the empty string
on a state where every gate passes. -/
theorem claim_C4_witness :
    (predictMessage wStC1 true wBoundaryErr "C1" [wMsgHi]).result = "" :=
  claim_C4 wStC1 true wBoundaryErr "C1" [wMsgHi] (fun _ => rfl)

/-- C5: in every state reachable by any sequence of operations from the
fresh service, every stored chat history has at most 20 messages; and
updateHistory on an active chat already holding 20 messages appends the new
message and evicts the oldest one. -/
theorem claim_C5 :
    (∀ ops : List Op, histInv (runTrace initState ops).1) ∧
    (∀ (st : ServiceState) (chatId : String) (h : List Message) (m : Message),
      st.currentChatId = some chatId →
      mapGet st.messageHistory chatId = some h →
      h.length = 20 →
      mapGet (updateHistory st chatId m).messageHistory chatId =
        some (h.tail ++ [m])) := by
  constructor
  · intro ops
    exact histInv_runTrace ops initState histInv_initState
  · intro st chatId h m hchat hget hlen
    have hne : h ≠ [] := by
      intro h0
      rw [h0] at hlen
      simp at hlen
    unfold updateHistory
    split
    · rename_i hgate
      exact absurd hchat hgate
    · dsimp only
      rw [hget]
      simp only [Option.getD_some]
      rw [if_pos (by simp [hlen])]
      rw [tail_append_singleton hne m]
      exact mapGet_mapSet_self _ _ _

/-- C5 witness: a concrete trace keeps the invariant, and a concrete full
history of 20 messages evicts its oldest entry on append. -/
theorem claim_C5_witness :
    histInv (runTrace initState
      [Op.setCurrentChat (some "B"), Op.updateHistory "B" wMsgHi]).1 ∧
    mapGet (updateHistory wStFull "B" wMsgNew).messageHistory "B" =
      some (wFullHistory.tail ++ [wMsgNew]) := by
  constructor
  · exact claim_C5.1 [Op.setCurrentChat (some "B"), Op.updateHistory "B" wMsgHi]
  · exact claim_C5.2 wStFull "B" wFullHistory wMsgNew rfl rfl rfl

/-- C6: when predictMessage reaches the formatting step, the boundary is
called on the fixed system turn followed by the formatted turns, and the
formatting maps a message whose username equals the current user id to an
assistant turn and every other message, including those without a username,
to a user turn, keeping each content and the input order. -/
theorem claim_C6 (st : ServiceState) (boundary : Boundary) (chatId uid : String)
    (messages : List Message)
    (hchat : st.currentChatId = some chatId)
    (huser : st.currentUserId = some uid)
    (huid : uid ≠ "")
    (hmsgs : messages ≠ []) :
    (predictMessage st true boundary chatId messages).boundaryCalls =
      [mkRequest (formatMessages (some uid) (takeLast 20 messages))] ∧
    ∀ msgs2 : List Message, formatMessages (some uid) msgs2 =
      msgs2.map (fun m =>
        { role := if m.username = some uid then Role.assistant else Role.user
          content := m.content }) := by
  have huserF : jsFalsyOptStr st.currentUserId = false := by
    rw [huser]
    simp only [jsFalsyOptStr]
    rw [Bool.eq_false_iff]
    intro h
    exact huid ((String.isEmpty_iff uid).1 h)
  have hpt : ∀ m : Message,
      (if jsStrictEqOptStr m.username (some uid) = true then Role.assistant else Role.user) =
      (if m.username = some uid then Role.assistant else Role.user) := by
    intro m
    cases hm : m.username with
    | none => simp [jsStrictEqOptStr]
    | some a =>
        by_cases ha : a = uid
        · simp [jsStrictEqOptStr, ha]
        · simp [jsStrictEqOptStr, ha]
  constructor
  · cases hb : boundary (mkRequest (formatMessages st.currentUserId
      (takeLast 20 messages))) with
    | ok comp =>
        rw [predictMessage_ok st boundary chatId messages comp hchat huserF hmsgs hb]
        rw [huser]
    | error e =>
        cases e
        rw [predictMessage_err st boundary chatId messages hchat huserF hmsgs hb]
        rw [huser]
  · intro msgs2
    induction msgs2 with
    | nil => rfl
    | cons m t ih =>
        simp only [formatMessages, List.map_cons] at ih ⊢
        rw [List.cons_eq_cons]
        exact ⟨by rw [hpt m], ih⟩

/-- C6 witness: user alice, one message from bob formatted as a user turn. -/
theorem claim_C6_witness :
    (predictMessage wStC1 true wBoundaryOk "C1" [wMsgHi]).boundaryCalls =
      [mkRequest (formatMessages (some "alice") (takeLast 20 [wMsgHi]))] ∧
    formatMessages (some "alice") [wMsgHi] =
      [{ role := Role.user, content := "hi" }] := by
  have h := claim_C6 wStC1 wBoundaryOk "C1" "alice" [wMsgHi] rfl rfl
    (by decide) (by simp)
  refine ⟨h.1, ?_⟩
  rw [h.2 [wMsgHi]]
  rfl

theorem filter_map_pair_length (c s : String) :
    ∀ ls : List Listener, ls.Nodup → ∀ l ∈ ls,
      ((ls.map (fun x => ((x, c, s) : Notification))).filter
        (fun e => e = ((l, c, s) : Notification))).length = 1 := by
  intro ls
  induction ls with
  | nil =>
      intro _ l hl
      simp at hl
  | cons a t ih =>
      intro hnd l hl
      have hat : a ∉ t := (List.nodup_cons.1 hnd).1
      rcases List.mem_cons.1 hl with rfl | hl2
      · have htail : (t.map (fun x => ((x, c, s) : Notification))).filter
            (fun e => e = ((l, c, s) : Notification)) = [] := by
          rw [List.filter_eq_nil_iff]
          intro e he
          rcases List.mem_map.1 he with ⟨x, hx, rfl⟩
          simp only [decide_eq_true_eq, Prod.mk.injEq, not_and]
          intro hx1 _
          exact absurd (hx1 ▸ hx) hat
        simp [List.filter_cons, htail]
      · have hal : a ≠ l := fun h => hat (h ▸ hl2)
        have ihx := ih (List.nodup_cons.1 hnd).2 l hl2
        simpa [List.filter_cons, Prod.mk.injEq, hal] using ihx

/-- C7, counterexample: the empty string is a reachable active chat id; the
claim says a set active chat makes clearPrediction delete that chat history
and notify every listener once, but with active chat the empty string the
call changes nothing and notifies nobody even though history for that chat
exists and a listener is registered. -/
theorem claim_C7_counterexample :
    wStEmptyChat.currentChatId.isSome = true ∧
    (0 : Listener) ∈ wStEmptyChat.predictionListeners ∧
    mapGet wStEmptyChat.messageHistory "" = some [wMsgHi] ∧
    (clearPrediction wStEmptyChat).state = wStEmptyChat ∧
    (clearPrediction wStEmptyChat).notifications = [] := by
  refine ⟨rfl, by decide, rfl, rfl, rfl⟩

/-- C7, amended: clearPrediction deletes the active chat history and invokes
every registered listener exactly once with the pair of the active chat id
and the empty string only when the active chat id is truthy, that is set and
non-empty; when the active chat is null or the empty string it changes no
state and notifies no listener. -/
theorem claim_C7_amended (st : ServiceState) (c : String)
    (hchat : st.currentChatId = some c) (hc : c ≠ "") :
    (clearPrediction st).state =
      { st with messageHistory := mapDelete st.messageHistory c } ∧
    (clearPrediction st).notifications =
      st.predictionListeners.map (fun l => (l, c, "")) ∧
    (st.predictionListeners.Nodup →
      ∀ l ∈ st.predictionListeners,
        ((clearPrediction st).notifications.filter
          (fun e => e = ((l, c, "") : Notification))).length = 1) ∧
    (∀ st2 : ServiceState, jsFalsyOptStr st2.currentChatId = true →
      clearPrediction st2 = { state := st2, notifications := [] }) := by
  have hcE : c.isEmpty = false := by
    rw [Bool.eq_false_iff]
    intro h
    exact hc ((String.isEmpty_iff c).1 h)
  have hred : clearPrediction st =
      { state := { st with messageHistory := mapDelete st.messageHistory c }
        notifications := st.predictionListeners.map (fun l => (l, c, "")) } := by
    unfold clearPrediction
    rw [hchat]
    simp only [hcE, Bool.false_eq_true, if_false]
    rfl
  refine ⟨by rw [hred], by rw [hred], ?_, ?_⟩
  · intro hnd l hl
    rw [hred]
    dsimp only
    exact filter_map_pair_length c "" st.predictionListeners hnd l hl
  · intro st2 hf
    unfold clearPrediction
    cases h2 : st2.currentChatId with
    | none => rfl
    | some s =>
        rw [h2] at hf
        simp only [jsFalsyOptStr] at hf
        simp [hf]

/-- C7 witness: active chat C1 with two listeners. -/
theorem claim_C7_amended_witness :
    (clearPrediction wStC1).state =
      { wStC1 with messageHistory := mapDelete wStC1.messageHistory "C1" } ∧
    (clearPrediction wStC1).notifications = [(0, "C1", ""), (1, "C1", "")] ∧
    ((clearPrediction wStC1).notifications.filter
      (fun e => e = ((0, "C1", "") : Notification))).length = 1 := by
  have h := claim_C7_amended wStC1 "C1" rfl (by decide)
  refine ⟨h.1, ?_, ?_⟩
  · rw [h.2.1]
    rfl
  · exact h.2.2.1 (by decide) 0 (by decide)

/-- C8: regeneratePrediction with the AI-enabled setting false returns the
empty string with no boundary call, no state change and no notification;
with the setting true it is literally predictMessage on the same chat and
messages, so its result, state effects, boundary calls and notifications
coincide. -/
theorem claim_C8 (st : ServiceState) (boundary : Boundary) (chatId : String)
    (messages : List Message) :
    regeneratePrediction st false boundary chatId messages =
      { result := "", state := st, boundaryCalls := [], notifications := [] } ∧
    regeneratePrediction st true boundary chatId messages =
      predictMessage st true boundary chatId messages := by
  constructor
  · rfl
  · rfl

/-- C9: the listener set has set semantics: adding an already-registered
reference is a no-op, and after removing a reference no notification of any
later operation sequence invokes it, as long as it is not added again. -/
theorem claim_C9 :
    (∀ (st : ServiceState) (l : Listener),
      l ∈ st.predictionListeners → addPredictionListener st l = st) ∧
    (∀ (st : ServiceState) (l : Listener) (ops : List Op),
      (∀ op ∈ ops, op ≠ Op.addPredictionListener l) →
      ∀ e ∈ (runTrace (removePredictionListener st l) ops).2, e.1 ≠ l) := by
  constructor
  · intro st l hl
    unfold addPredictionListener
    rw [if_pos hl]
  · intro st l ops hops
    exact (runTrace_no_notify ops _ (removePredictionListener_not_mem st l) hops).2

/-- C9 witness: after removing listener 0, a clearPrediction and the addition
of a different listener never notify listener 0. -/
theorem claim_C9_witness :
    addPredictionListener wStC1 0 = wStC1 ∧
    ∀ e ∈ (runTrace (removePredictionListener wStC1 0)
      [Op.clearPrediction, Op.addPredictionListener 1]).2, e.1 ≠ 0 := by
  constructor
  · exact claim_C9.1 wStC1 0 (by decide)
  · refine claim_C9.2 wStC1 0 [Op.clearPrediction, Op.addPredictionListener 1] ?_
    intro op hop
    rcases List.mem_cons.1 hop with h | h
    · subst h
      simp
    · rcases List.mem_cons.1 h with h | h
      · subst h
        simp
      · simp at h

/-- C10: calling setCurrentChat with the empty string clears all stored
history exactly as the null case does, because the implementation tests
falsiness; the empty string nevertheless becomes the active chat id, and a
subsequent predictMessage for the empty-string chat passes the gates and
reaches the boundary. -/
theorem claim_C10 (st : ServiceState) (boundary : Boundary) (m : Message) :
    (setCurrentChat st (some "")).messageHistory = [] ∧
    (setCurrentChat st none).messageHistory = [] ∧
    (setCurrentChat st (some "")).currentChatId = some "" ∧
    (predictMessage (setCurrentUser (setCurrentChat st (some "")) "u") true
        boundary "" [m]).boundaryCalls =
      [mkRequest (formatMessages (some "u") [m])] := by
  refine ⟨rfl, rfl, rfl, ?_⟩
  cases hb : boundary (mkRequest (formatMessages (some "u") [m])) with
  | ok comp =>
      rw [predictMessage_ok (setCurrentUser (setCurrentChat st (some "")) "u")
        boundary "" [m] comp rfl rfl (by simp) hb]
      rfl
  | error e =>
      cases e
      rw [predictMessage_err (setCurrentUser (setCurrentChat st (some "")) "u")
        boundary "" [m] rfl rfl (by simp) hb]
      rfl
